import Mathlib

/-!
Verification development for the phone-farm device-setup repository.

The definitions below are a shallow embedding of the core engine:

* `src/core/batch_adb.py` — `BatchADB.run_command_batch` and its inner
  `run_single`, which run one ADB command per device serial and collect
  the per-device outcomes into a dict keyed by serial.
* `src/core/device_manager.py` — the `Device` record, the discovery merge
  in `DeviceManager.scan_devices`, `DeviceManager.connect_device`,
  `DeviceManager.connect_all_devices` and
  `DeviceManager.ensure_u2_connection`.
* `src/core/fast_startup.py` — `FastStartup.optimize_device_connections`.
* `src/config/farm_settings.py` — the `PERFORMANCE` batch-size table.

External effects (the `subprocess` calls, `u2.connect`, the `.info`
probe) are abstracted as outcome oracles passed to the embedded
functions; everything else follows the Python control flow line by line.
-/

namespace PhoneFarm

/-! ## Batch executor (`src/core/batch_adb.py`) -/

/-- Outcome of the external `subprocess.run` call made by `run_single`
for one device: normal completion with a return code and captured
output, a `subprocess.TimeoutExpired`, or any other exception.  A whole
batch shares one command and one timeout, so the oracle passed to
`run_command_batch` depends on the serial alone. -/
inductive CmdOutcome where
  | ok (returncode : Int) (stdout stderr : String)
  | timedOut
  | exc (msg : String)
  deriving DecidableEq, Repr

/-- Per-device result dictionary built by `run_single`.  Python uses a
dict whose key set differs per branch; absent keys are modelled as
`none` / `false`. -/
structure BatchResult where
  success : Bool
  stdout : Option String := none
  stderr : Option String := none
  returncode : Option Int := none
  error : Option String := none
  timeout : Bool := false
  deriving DecidableEq, Repr

/-- Embeds the three branches of `run_single` in
`BatchADB.run_command_batch` (src/core/batch_adb.py): the try-branch
returns success/stdout/stderr/returncode, the `TimeoutExpired` handler
returns `{success: False, error: "Command timed out", timeout: True}`,
and the generic handler returns `{success: False, error: str(e)}`. -/
def singleResult : CmdOutcome → BatchResult
  | .ok rc out err =>
      { success := rc = 0, stdout := some out, stderr := some err,
        returncode := some rc }
  | .timedOut =>
      { success := false, error := some "Command timed out", timeout := true }
  | .exc msg =>
      { success := false, error := some msg }

/-- One `run_single(serial)` task: pairs the serial with its result. -/
def run_single (outcome : String → CmdOutcome) (serial : String) :
    String × BatchResult :=
  (serial, singleResult (outcome serial))

/-- `BatchADB.run_command_batch`: gathers `run_single` over every serial
in `devices`; `asyncio.gather` preserves the order of the task list. -/
def run_command_batch (outcome : String → CmdOutcome)
    (devices : List String) : List (String × BatchResult) :=
  devices.map (run_single outcome)

/-- Lookup in the dict built by Python `dict(results)` from a pair list:
a later binding for the same key overwrites an earlier one. -/
def dictOf : List (String × BatchResult) → String → Option BatchResult
  | [], _ => none
  | kv :: rest, q =>
      match dictOf rest q with
      | some r => some r
      | none => if q = kv.1 then some kv.2 else none

/-- Default worker-pool bound of `BatchADB.__init__`
(`ThreadPoolExecutor(max_workers=50)`). -/
def BatchADB_max_workers : Nat := 50

/-! ## Device registry (`src/core/device_manager.py`) -/

/-- The `Device` dataclass.  `u2_device` is the opaque uiautomator2
handle (modelled as a `Nat` tag); `adb_device` and `network_info` are
opaque payloads never consulted by the embedded control flow. -/
structure Device where
  serial : String
  model : String := "Unknown"
  android_version : String := "Unknown"
  status : String := "disconnected"
  u2_device : Option Nat := none
  adb_device : Option Unit := none
  network_info : Option Unit := none
  proxy_status : Option String := none
  deriving DecidableEq, Repr

/-- One parsed line of `adb devices -l` output as consumed by
`DeviceManager.scan_devices`: the serial, the reported status
(`parts[1]`) and the extracted model string (`"Unknown"` when the line
has no `model:` field). -/
structure ScanEntry where
  serial : String
  status : String
  model : String := "Unknown"
  deriving DecidableEq, Repr

/-- Registry lookup `self.devices[serial]`, modelled over the value list
of the registry dict. -/
def findDevice (devs : List Device) (serial : String) : Option Device :=
  devs.find? (fun d => d.serial = serial)

/-- In-place mutation of the registry entry whose key is `serial`. -/
def updateDevice (devs : List Device) (serial : String)
    (f : Device → Device) : List Device :=
  devs.map (fun d => if d.serial = serial then f d else d)

/-- The per-line merge step of `DeviceManager.scan_devices`: an unknown
serial is inserted fresh; a known serial currently `"disconnected"` gets
its status and model reinstated; a known serial that is not
`"connected"` gets only its status updated; a `"connected"` device is
left untouched. -/
def mergeEntry (devs : List Device) (e : ScanEntry) : List Device :=
  match findDevice devs e.serial with
  | none =>
      devs ++ [{ serial := e.serial, model := e.model, status := e.status }]
  | some d =>
      if d.status = "disconnected" then
        updateDevice devs e.serial
          (fun d => { d with status := e.status, model := e.model })
      else if d.status ≠ "connected" then
        updateDevice devs e.serial (fun d => { d with status := e.status })
      else devs

/-- The trailing loop of `DeviceManager.scan_devices`: a registry
device absent from `currently_plugged_serials` is marked
`"disconnected"` and its `u2_device` handle cleared; devices already
`"disconnected"` are skipped by the inner status guard. -/
def missMark (plugged : List String) (d : Device) : Device :=
  if d.serial ∈ plugged then d
  else if d.status ≠ "disconnected" then
    { d with status := "disconnected", u2_device := none }
  else d

/-- `DeviceManager.scan_devices`: fold the per-line merge over the
enumeration, then apply the miss-marking loop to every registry
device. -/
def scan_devices (devs : List Device) (entries : List ScanEntry) :
    List Device :=
  (entries.foldl mergeEntry devs).map
    (missMark (entries.map ScanEntry.serial))

/-! ## Connection attempts (`DeviceManager.connect_device`) -/

/-- Outcomes of the external calls one connection attempt can make:
`u2connect` is the `u2.connect(serial)` call (exception message or an
opaque handle), `infoProbe` is the follow-up `device.u2_device.info`
read (exception message or the reported version string), and `getprop`
is the best-effort fast-path `adb shell getprop ro.product.model` query
(`some m` when it exits 0 with stripped output `m`, `none` when it
fails or raises). -/
structure ConnectEnv where
  u2connect : Except String Nat
  infoProbe : Except String String
  getprop : Option String
  deriving Repr

/-- Observable registry side effects traced by the embedding: a
`_save_device_cache()` call, or a `progress_callback(connected, total)`
invocation. -/
inductive Event where
  | saveCache
  | progress (connected total : Nat)
  deriving DecidableEq, Repr

/-- Result of one `connect_device` call: the returned boolean, the
mutated device record, and the side-effect trace. -/
structure ConnectOutcome where
  ok : Bool
  dev : Device
  events : List Event
  deriving DecidableEq, Repr

/-- `DeviceManager.connect_device`: skips devices whose status is
`"unauthorized"` or anything other than `"device"`; in fast mode
(`skip_u2`) marks the device `"connected"` without touching
`u2_device` and best-effort refreshes an unknown model; in full mode
assigns `u2_device` from `u2.connect`, probes `.info` for the Android
version, marks `"connected"` and saves the cache.  The exception
handler sets status `"error"` and returns `False` without clearing
`u2_device`, so a handle assigned before a failing `.info` probe
survives into the error state. -/
def connect_device (env : ConnectEnv) (d : Device) (skip_u2 : Bool) :
    ConnectOutcome :=
  if d.status = "unauthorized" then ⟨false, d, []⟩
  else if d.status ≠ "device" then ⟨false, d, []⟩
  else if skip_u2 then
    let d1 := { d with status := "connected" }
    let d2 :=
      if d1.model = "" ∨ d1.model = "Unknown" then
        match env.getprop with
        | some m => { d1 with model := m }
        | none => d1
      else d1
    ⟨true, d2, []⟩
  else
    match env.u2connect with
    | .error _ => ⟨false, { d with status := "error" }, []⟩
    | .ok h =>
      let d1 := { d with u2_device := some h }
      match env.infoProbe with
      | .error _ => ⟨false, { d1 with status := "error" }, []⟩
      | .ok ver =>
        ⟨true, { d1 with android_version := ver, status := "connected" },
          [Event.saveCache]⟩

/-- `DeviceManager.ensure_u2_connection`: returns `True` immediately
when `u2_device is not None`; otherwise establishes the handle via
`u2.connect`, probes `.info`, and records the Android version.  A
failing probe still leaves the freshly assigned handle in place. -/
def ensure_u2_connection (env : ConnectEnv) (d : Device) :
    Bool × Device :=
  if d.u2_device.isSome then (true, d)
  else
    match env.u2connect with
    | .error _ => (false, d)
    | .ok h =>
      let d1 := { d with u2_device := some h }
      match env.infoProbe with
      | .error _ => (false, d1)
      | .ok ver => (true, { d1 with android_version := ver })

/-! ## Connection orchestrator (`DeviceManager.connect_all_devices`) -/

/-- The authorized subset used by `connect_all_devices`:
`[d for d in devices if d.status == "device"]`. -/
def authorizedOf (devs : List Device) : List Device :=
  devs.filter (fun d => d.status = "device")

/-- The `PERFORMANCE['batch_sizes']` threshold table of
`src/config/farm_settings.py` as applied by `connect_all_devices` when
no batch-size override is given. -/
def baseBatchSize (n : Nat) : Nat :=
  if n ≤ 10 then 10
  else if n ≤ 50 then 25
  else if n ≤ 100 then 50
  else 75

/-- Fast-mode doubling of the computed batch size, capped at
`PERFORMANCE['max_concurrent_connections'] = 50`; without fast mode the
table value is used as is. -/
def computeBatchSize (n : Nat) (fast_mode : Bool) : Nat :=
  if fast_mode then min (baseBatchSize n * 2) 50 else baseBatchSize n

/-- Sequential slicing `authorized_devices[batch_start:batch_end]` for
`batch_start in range(0, device_count, batch_size)`, written with a
fuel argument (the list length bounds the number of waves whenever the
batch size is at least 1). -/
def chunkList : Nat → Nat → List Device → List (List Device)
  | 0, _, _ => []
  | fuel + 1, bs, l =>
      if l = [] then []
      else l.take bs :: chunkList fuel bs (l.drop bs)

/-- Wave structure of `connect_all_devices`: one wave holding every
authorized device when `batch_size >= device_count`, otherwise the
sequential slices of size `batch_size`. -/
def waveListOf (auth : List Device) (bs : Nat) : List (List Device) :=
  if auth.length ≤ bs then [auth]
  else chunkList auth.length bs auth

/-- One wave: `asyncio.gather` over `connect_device` for each device of
the wave; the first component counts the `True` results
(`sum(1 for r in results if r is True)`), the second concatenates the
side-effect traces. -/
def runWave (env : String → ConnectEnv) (fast : Bool)
    (wave : List Device) : Nat × List Event :=
  let rs := wave.map (fun d => connect_device (env d.serial) d fast)
  ((rs.filter (fun r => r.ok)).length,
    (rs.map (fun r => r.events)).flatten)

/-- Number of successful connection attempts in one wave. -/
def countOk (env : String → ConnectEnv) (fast : Bool)
    (wave : List Device) : Nat :=
  (runWave env fast wave).1

/-- Loop body of the wave loop in `connect_all_devices`: run the wave,
add its successes to the running total, and invoke
`progress_callback(total_connected, device_count)`. -/
def waveStep (env : String → ConnectEnv) (fast : Bool) (n : Nat)
    (acc : Nat × List Event) (wave : List Device) : Nat × List Event :=
  let wr := runWave env fast wave
  (acc.1 + wr.1, acc.2 ++ wr.2 ++ [Event.progress (acc.1 + wr.1) n])

/-- `DeviceManager.connect_all_devices`: filter the authorized devices
(status `"device"`), return 0 when none; otherwise compute the batch
size (the table when no override is given), run the waves sequentially,
and in fast mode save the device cache once at the end
(`if fast_mode: self._save_device_cache()`).  The returned pair is the
connected count and the ordered side-effect trace. -/
def connect_all (env : String → ConnectEnv) (devs0 : List Device)
    (batch_override : Option Nat) (fast_mode : Bool) :
    Nat × List Event :=
  if authorizedOf devs0 = [] then (0, [])
  else
    let n := (authorizedOf devs0).length
    let bs :=
      match batch_override with
      | some b => b
      | none => computeBatchSize n fast_mode
    let r := (waveListOf (authorizedOf devs0) bs).foldl
      (waveStep env fast_mode n) (0, [])
    if fast_mode then (r.1, r.2 ++ [Event.saveCache]) else (r.1, r.2)

/-- Progress-callback invocations of a trace, in order. -/
def progressEvents (evs : List Event) : List (Nat × Nat) :=
  evs.filterMap (fun e =>
    match e with
    | .progress c t => some (c, t)
    | _ => none)

/-- Number of `_save_device_cache()` calls in a trace. -/
def countSave (evs : List Event) : Nat :=
  (evs.filter (fun e => e = Event.saveCache)).length

/-- Expected progress-callback arguments: cumulative connected counts
paired with the fixed total. -/
def cumProgress (total : Nat) : Nat → List Nat → List (Nat × Nat)
  | _, [] => []
  | acc, x :: xs => (acc + x, total) :: cumProgress total (acc + x) xs

/-! ## Fast-startup planner (`src/core/fast_startup.py`) -/

/-- The dict returned by `FastStartup.optimize_device_connections`. -/
structure ConnectionPlan where
  batch_size : Nat
  fast_mode : Bool
  parallel_limit : Nat
  use_cache : Bool
  deriving DecidableEq, Repr

/-- `FastStartup.optimize_device_connections`: a lookup on the device
count with thresholds 10/30/50/100.  For at most 10 devices both the
batch size and the parallel limit are the device count itself. -/
def optimize_device_connections (device_count : Nat) : ConnectionPlan :=
  if device_count ≤ 10 then
    { batch_size := device_count, fast_mode := true,
      parallel_limit := device_count, use_cache := false }
  else if device_count ≤ 30 then
    { batch_size := 15, fast_mode := true, parallel_limit := 15,
      use_cache := true }
  else if device_count ≤ 50 then
    { batch_size := 25, fast_mode := true, parallel_limit := 25,
      use_cache := true }
  else if device_count ≤ 100 then
    { batch_size := 50, fast_mode := true, parallel_limit := 50,
      use_cache := true }
  else
    { batch_size := 75, fast_mode := true, parallel_limit := 75,
      use_cache := true }

/-! ## Bounded worker pool (`BatchADB` executor)

`run_command_batch` dispatches every `run_single` coroutine at once via
`asyncio.gather`, but each per-device `subprocess.run` executes inside
`self.executor`, the single `ThreadPoolExecutor(max_workers=limit)`
created by `BatchADB.__init__`.  The pool contract — a submitted call
runs only once one of the `limit` worker threads is free — is embedded
as the admission guard of the `start` step below; `initPool` is the
state right after `gather` has submitted all tasks. -/

/-- Scheduler state of one batch: tasks submitted but waiting for a
worker thread, tasks currently executing, tasks finished. -/
structure PoolState where
  pending : List String
  running : List String
  finished : List String
  deriving DecidableEq, Repr

/-- Interleaving semantics of the executor: `start` moves a pending
task onto a worker thread only while fewer than `limit` tasks are
running; `finish` releases the worker. -/
inductive PoolStep (limit : Nat) : PoolState → PoolState → Prop
  | start (t : String) (s : PoolState) (hmem : t ∈ s.pending)
      (hcap : s.running.length < limit) :
      PoolStep limit s ⟨s.pending.erase t, t :: s.running, s.finished⟩
  | finish (t : String) (s : PoolState) (hmem : t ∈ s.running) :
      PoolStep limit s ⟨s.pending, s.running.erase t, t :: s.finished⟩

/-- State right after `asyncio.gather` has dispatched one `run_single`
task per device serial. -/
def initPool (devices : List String) : PoolState :=
  ⟨devices, [], []⟩

/-! ## Concrete inputs used by witnesses and counterexamples -/

/-- Five serials for the partial-failure-isolation scenario. -/
def fiveSerials : List String := ["d1", "d2", "d3", "d4", "d5"]

/-- Outcome oracle where device 3 raises and the rest succeed. -/
def fiveOutcome : String → CmdOutcome := fun s =>
  if s = "d3" then .exc "boom" else .ok 0 "" ""

/-- A connected registry device holding a live automation handle. -/
def devConnA : Device :=
  { serial := "a", model := "Pixel", status := "connected",
    u2_device := some 5 }

/-- An authorized (status `"device"`) device ready to connect. -/
def authA : Device := { serial := "a", status := "device" }

/-- A second authorized device. -/
def authB : Device := { serial := "b", status := "device" }

/-- Environment where session establishment succeeds but the
verification probe raises. -/
def envProbeFail : ConnectEnv :=
  { u2connect := .ok 7, infoProbe := .error "probe boom", getprop := none }

/-- Environment where every external call succeeds. -/
def envOkAll : String → ConnectEnv := fun _ =>
  { u2connect := .ok 0, infoProbe := .ok "11", getprop := none }

/-! ## Lemmas about the batch executor -/

theorem dictOf_eq_none_iff (l : List (String × BatchResult)) (q : String) :
    dictOf l q = none ↔ q ∉ l.map Prod.fst := by
  induction l with
  | nil => simp [dictOf]
  | cons kv rest ih =>
    simp only [dictOf, List.map_cons, List.mem_cons]
    cases h : dictOf rest q with
    | some r =>
      have hmem : q ∈ rest.map Prod.fst := by
        by_contra hq
        have hn := ih.mpr hq
        rw [h] at hn
        exact absurd hn (by simp)
      simp [hmem]
    | none =>
      rw [h] at ih
      simp only [true_iff] at ih
      constructor
      · intro hif
        by_cases hq : q = kv.1
        · simp [hq] at hif
        · push_neg; exact ⟨fun hh => hq hh, ih⟩
      · intro hc
        push_neg at hc
        simp [hc.1]

theorem dictOf_run_command_batch (outcome : String → CmdOutcome)
    (devices : List String) (q : String) :
    dictOf (run_command_batch outcome devices) q =
      if q ∈ devices then some (singleResult (outcome q)) else none := by
  induction devices with
  | nil => simp [run_command_batch, dictOf]
  | cons d rest ih =>
    simp only [run_command_batch, List.map_cons, dictOf] at *
    rw [ih]
    by_cases hq : q ∈ rest
    · simp [hq, List.mem_cons, or_true]
    · by_cases hd : q = d
      · subst hd; simp [hq, run_single]
      · simp [hq, hd, run_single, List.mem_cons]

/-! ## Lemmas about the registry merge -/

theorem findDevice_map_of_serial_preserved (l : List Device)
    (g : Device → Device) (s : String)
    (hser : ∀ x, (g x).serial = x.serial) :
    findDevice (l.map g) s = (findDevice l s).map g := by
  induction l with
  | nil => simp [findDevice]
  | cons d rest ih =>
    by_cases hd : d.serial = s
    · rw [List.map_cons]
      unfold findDevice
      rw [List.find?_cons_of_pos _ (by simp [hser, hd]),
        List.find?_cons_of_pos _ (by simp [hd])]
      rfl
    · rw [List.map_cons]
      unfold findDevice
      rw [List.find?_cons_of_neg _ (by simp [hser, hd]),
        List.find?_cons_of_neg _ (by simp [hd])]
      exact ih

theorem findDevice_append_right (l : List Device) (x : Device)
    (s : String) (d : Device) (h : findDevice l s = some d) :
    findDevice (l ++ [x]) s = some d := by
  simp only [findDevice] at *
  rw [List.find?_append, h]
  rfl

theorem updateDevice_serial (devs : List Device) (serial : String)
    (f : Device → Device) (hser : ∀ x, (f x).serial = x.serial)
    (s : String) :
    findDevice (updateDevice devs serial f) s =
      (findDevice devs s).map (fun d => if d.serial = serial then f d else d) := by
  unfold updateDevice
  apply findDevice_map_of_serial_preserved
  intro x
  by_cases hx : x.serial = serial <;> simp [hx, hser]

theorem findDevice_updateDevice_ne (devs : List Device)
    (serial s : String) (f : Device → Device)
    (hser : ∀ x, (f x).serial = x.serial) (hne : s ≠ serial)
    (d : Device) (hfind : findDevice devs s = some d) :
    findDevice (updateDevice devs serial f) s = some d := by
  have hg : ∀ x : Device,
      ((fun x => if x.serial = serial then f x else x) x).serial = x.serial := by
    intro x
    by_cases hx : x.serial = serial <;> simp [hx, hser]
  unfold updateDevice
  rw [findDevice_map_of_serial_preserved devs _ s hg, hfind]
  have hds : d.serial = s := by
    have hp := List.find?_some hfind
    simpa using hp
  simp only [Option.map_some']
  rw [if_neg (by rw [hds]; exact hne)]

/-- A `"connected"` device still enumerated is never modified by the
merge fold. -/
theorem foldl_mergeEntry_connected (entries : List ScanEntry)
    (devs : List Device) (d : Device)
    (hfind : findDevice devs d.serial = some d)
    (hconn : d.status = "connected") :
    findDevice (entries.foldl mergeEntry devs) d.serial = some d := by
  induction entries generalizing devs with
  | nil => exact hfind
  | cons e rest ih =>
    apply ih
    unfold mergeEntry
    by_cases he : e.serial = d.serial
    · rw [he, hfind]
      dsimp only
      rw [if_neg (by rw [hconn]; simp), if_neg (by rw [hconn]; simp)]
      exact hfind
    · cases hf : findDevice devs e.serial with
      | none =>
        dsimp only
        exact findDevice_append_right devs _ _ d hfind
      | some x =>
        dsimp only
        by_cases hx : x.status = "disconnected"
        · rw [if_pos hx]
          exact findDevice_updateDevice_ne devs e.serial d.serial _
            (by intro y; rfl) (fun hh => he hh.symm) d hfind
        · by_cases hx2 : x.status = "connected"
          · rw [if_neg hx, if_neg (by simp [hx2])]
            exact hfind
          · rw [if_neg hx, if_pos hx2]
            exact findDevice_updateDevice_ne devs e.serial d.serial _
              (by intro y; rfl) (fun hh => he hh.symm) d hfind

/-- A device whose serial is absent from the enumeration is never
modified by the merge fold, whatever its status. -/
theorem foldl_mergeEntry_absent (entries : List ScanEntry)
    (devs : List Device) (d : Device)
    (hfind : findDevice devs d.serial = some d)
    (habs : d.serial ∉ entries.map ScanEntry.serial) :
    findDevice (entries.foldl mergeEntry devs) d.serial = some d := by
  induction entries generalizing devs with
  | nil => exact hfind
  | cons e rest ih
  => ?_
  simp only [List.map_cons, List.mem_cons] at habs
  push_neg at habs
  apply ih _ _ habs.2
  unfold mergeEntry
  have he : e.serial ≠ d.serial := fun hh => habs.1 hh.symm
  cases hf : findDevice devs e.serial with
  | none =>
    dsimp only
    exact findDevice_append_right devs _ _ d hfind
  | some x =>
    dsimp only
    by_cases hx : x.status = "disconnected"
    · rw [if_pos hx]
      exact findDevice_updateDevice_ne devs e.serial d.serial _
        (by intro y; rfl) (fun hh => he hh.symm) d hfind
    · by_cases hx2 : x.status = "connected"
      · rw [if_neg hx, if_neg (by simp [hx2])]
        exact hfind
      · rw [if_neg hx, if_pos hx2]
        exact findDevice_updateDevice_ne devs e.serial d.serial _
          (by intro y; rfl) (fun hh => he hh.symm) d hfind

theorem missMark_serial (plugged : List String) (x : Device) :
    (missMark plugged x).serial = x.serial := by
  unfold missMark
  by_cases h1 : x.serial ∈ plugged
  · rw [if_pos h1]
  · rw [if_neg h1]
    by_cases h2 : x.status ≠ "disconnected"
    · rw [if_pos h2]
    · rw [if_neg h2]

/-! ## Claim theorems -/

/-- Claim C1: batch result completeness — the key set of the dict
returned by `run_command_batch` is exactly the set of input device
serials, whatever the per-device outcomes (including devices whose
operation times out or raises). -/
theorem batch_result_completeness (outcome : String → CmdOutcome)
    (devices : List String) (d : String) :
    dictOf (run_command_batch outcome devices) d ≠ none ↔ d ∈ devices := by
  rw [dictOf_run_command_batch]
  by_cases h : d ∈ devices <;> simp [h]

/-- Claim C2: per-device failure encoding — an exception for a device
yields the entry `{success: false, error: msg}`, a timeout additionally
carries `timeout = true`; the batch function is total, and on the
concrete five-device batch where device 3 raises there are exactly four
`success = true` entries and one `success = false` entry. -/
theorem per_device_failure_encoding (outcome : String → CmdOutcome)
    (devices : List String) (d m : String) (hd : d ∈ devices) :
    (outcome d = .exc m →
      dictOf (run_command_batch outcome devices) d =
        some { success := false, error := some m }) ∧
    (outcome d = .timedOut →
      dictOf (run_command_batch outcome devices) d =
        some { success := false, error := some "Command timed out",
               timeout := true }) ∧
    ((run_command_batch fiveOutcome fiveSerials).filter
        (fun r => r.2.success)).length = 4 ∧
    ((run_command_batch fiveOutcome fiveSerials).filter
        (fun r => r.2.success = false)).length = 1 ∧
    dictOf (run_command_batch fiveOutcome fiveSerials) "d3" =
      some { success := false, error := some "boom" } := by
  refine ⟨?_, ?_, by decide, by decide, by decide⟩
  · intro h
    rw [dictOf_run_command_batch]
    simp [hd, h, singleResult]
  · intro h
    rw [dictOf_run_command_batch]
    simp [hd, h, singleResult]

theorem per_device_failure_encoding_witness :
    dictOf (run_command_batch fiveOutcome fiveSerials) "d3" =
      some { success := false, error := some "boom" } :=
  (per_device_failure_encoding fiveOutcome fiveSerials "d3" "boom"
    (by decide)).1 (by decide)

/-- Claim C4: merge idempotence — a device in state `"connected"` whose
serial is still reported by the discovery enumeration is left in the
registry completely unchanged by `scan_devices`, so its state stays
`"connected"` and its `u2_device` handle is intact. -/
theorem merge_idempotence (devs : List Device) (entries : List ScanEntry)
    (d : Device) (hfind : findDevice devs d.serial = some d)
    (hconn : d.status = "connected")
    (hpresent : d.serial ∈ entries.map ScanEntry.serial) :
    findDevice (scan_devices devs entries) d.serial = some d := by
  unfold scan_devices
  rw [findDevice_map_of_serial_preserved _ _ _ (missMark_serial _),
    foldl_mergeEntry_connected entries devs d hfind hconn]
  simp only [Option.map_some']
  unfold missMark
  rw [if_pos hpresent]

theorem merge_idempotence_witness :
    findDevice
        (scan_devices [devConnA]
          [{ serial := "a", status := "device", model := "Pixel" }])
        devConnA.serial = some devConnA :=
  merge_idempotence [devConnA]
    [{ serial := "a", status := "device", model := "Pixel" }] devConnA
    (by decide) (by decide) (by decide)

/-- Claim C5: miss triggers disconnect — a device in any state other
than `"disconnected"` whose serial is absent from the discovery
enumeration is transitioned to `"disconnected"` with its `u2_device`
handle cleared. -/
theorem miss_triggers_disconnect (devs : List Device)
    (entries : List ScanEntry) (d : Device)
    (hfind : findDevice devs d.serial = some d)
    (hnd : d.status ≠ "disconnected")
    (habs : d.serial ∉ entries.map ScanEntry.serial) :
    findDevice (scan_devices devs entries) d.serial =
      some { d with status := "disconnected", u2_device := none } := by
  unfold scan_devices
  rw [findDevice_map_of_serial_preserved _ _ _ (missMark_serial _),
    foldl_mergeEntry_absent entries devs d hfind habs]
  simp only [Option.map_some']
  unfold missMark
  rw [if_neg habs, if_pos hnd]

theorem miss_triggers_disconnect_witness :
    findDevice (scan_devices [devConnA] []) devConnA.serial =
      some { devConnA with status := "disconnected", u2_device := none } :=
  miss_triggers_disconnect [devConnA] [] devConnA (by decide) (by decide)
    (by decide)

/-- Claim C7 counterexample: connecting an authorized device in an
environment where `u2.connect` succeeds (handle 7) but the `.info`
verification probe raises leaves the device in status `"error"` with
`u2_device = some 7` — the automation handle is present in a
non-`"connected"` state, so it is not released on error as claimed. -/
theorem connect_error_handle_counterexample :
    (connect_device envProbeFail authA false).ok = false ∧
    (connect_device envProbeFail authA false).dev.status = "error" ∧
    (connect_device envProbeFail authA false).dev.u2_device = some 7 := by
  decide

/-- Claim C7 amended: `connect_device` from any status other than
`"device"` is a no-op failure leaving the record unchanged; on an
exception the status becomes `"error"` but the handle is only left as
it was — absent when `u2.connect` itself raised, and still present
(the freshly assigned handle) when the `.info` probe raised. -/
theorem connect_error_amended (env : ConnectEnv) (d : Device) (b : Bool) :
    (d.status ≠ "device" → connect_device env d b = ⟨false, d, []⟩) ∧
    (∀ m, d.status = "device" → env.u2connect = .error m →
      connect_device env d false = ⟨false, { d with status := "error" }, []⟩) ∧
    (∀ h m, d.status = "device" → env.u2connect = .ok h →
      env.infoProbe = .error m →
      connect_device env d false =
        ⟨false, { d with u2_device := some h, status := "error" }, []⟩) := by
  refine ⟨?_, ?_, ?_⟩
  · intro hnd
    unfold connect_device
    by_cases h1 : d.status = "unauthorized"
    · rw [if_pos h1]
    · rw [if_neg h1, if_pos hnd]
  · intro m hd hu
    unfold connect_device
    rw [if_neg (by rw [hd]; decide), if_neg (by rw [hd]; simp),
      if_neg (by simp), hu]
  · intro h m hd hu hi
    unfold connect_device
    rw [if_neg (by rw [hd]; decide), if_neg (by rw [hd]; simp),
      if_neg (by simp), hu]
    dsimp only
    rw [hi]

theorem connect_error_amended_witness :
    connect_device envProbeFail devConnA false = ⟨false, devConnA, []⟩ ∧
    connect_device envProbeFail authA false =
      ⟨false, { authA with u2_device := some 7, status := "error" }, []⟩ :=
  ⟨(connect_error_amended envProbeFail devConnA false).1 (by decide),
   (connect_error_amended envProbeFail authA false).2.2 7 "probe boom"
     (by decide) rfl rfl⟩

/-- Claim C6 counterexample: `optimize_device_connections 8` returns
batch size 8 (the device count itself), not 10 as claimed. -/
theorem plan_for_8_counterexample :
    (optimize_device_connections 8).batch_size = 8 ∧
    ¬ (optimize_device_connections 8).batch_size = 10 := by
  decide

/-- Claim C6 amended: `optimize_device_connections` is a deterministic
lookup with thresholds 10/30/50/100; for at most 10 devices it returns
the device count itself as batch size (with fast mode and no cache),
then 15, 25, 50, 75 for the following tiers; in particular
`planFor(40) = 25`, `planFor(75) = 50`, `planFor(150) = 75`, and fast
mode is always on. -/
theorem plan_table_amended :
    (∀ n, n ≤ 10 → optimize_device_connections n =
      { batch_size := n, fast_mode := true, parallel_limit := n,
        use_cache := false }) ∧
    (∀ n, 10 < n → n ≤ 30 →
      (optimize_device_connections n).batch_size = 15) ∧
    (∀ n, 30 < n → n ≤ 50 →
      (optimize_device_connections n).batch_size = 25) ∧
    (∀ n, 50 < n → n ≤ 100 →
      (optimize_device_connections n).batch_size = 50) ∧
    (∀ n, 100 < n → (optimize_device_connections n).batch_size = 75) ∧
    (optimize_device_connections 40).batch_size = 25 ∧
    (optimize_device_connections 75).batch_size = 50 ∧
    (optimize_device_connections 150).batch_size = 75 ∧
    (∀ n, (optimize_device_connections n).fast_mode = true) := by
  refine ⟨?_, ?_, ?_, ?_, ?_, by decide, by decide, by decide, ?_⟩
  · intro n hn
    unfold optimize_device_connections
    rw [if_pos hn]
  · intro n h1 h2
    unfold optimize_device_connections
    rw [if_neg (by omega), if_pos h2]
  · intro n h1 h2
    unfold optimize_device_connections
    rw [if_neg (by omega), if_neg (by omega), if_pos h2]
  · intro n h1 h2
    unfold optimize_device_connections
    rw [if_neg (by omega), if_neg (by omega), if_neg (by omega),
      if_pos h2]
  · intro n h1
    unfold optimize_device_connections
    rw [if_neg (by omega), if_neg (by omega), if_neg (by omega),
      if_neg (by omega)]
  · intro n
    unfold optimize_device_connections
    split
    · rfl
    split
    · rfl
    split
    · rfl
    split
    · rfl
    · rfl

theorem plan_table_amended_witness :
    optimize_device_connections 8 =
      { batch_size := 8, fast_mode := true, parallel_limit := 8,
        use_cache := false } :=
  plan_table_amended.1 8 (by decide)

/-- Claim C10: lazy-upgrade idempotence — when the automation handle is
already present, `ensure_u2_connection` returns `True` with the device
record untouched, so a second call right after the first has the same
effect on the device as the first alone. -/
theorem ensure_u2_idempotent (env env2 : ConnectEnv) (d : Device)
    (h : d.u2_device.isSome) :
    ensure_u2_connection env d = (true, d) ∧
    ensure_u2_connection env2 (ensure_u2_connection env d).2 =
      ensure_u2_connection env d := by
  have h1 : ensure_u2_connection env d = (true, d) := by
    unfold ensure_u2_connection
    rw [if_pos h]
  refine ⟨h1, ?_⟩
  rw [h1]
  show ensure_u2_connection env2 d = (true, d)
  unfold ensure_u2_connection
  rw [if_pos h]

theorem ensure_u2_idempotent_witness :
    ensure_u2_connection envProbeFail devConnA = (true, devConnA) :=
  (ensure_u2_idempotent envProbeFail envProbeFail devConnA (by decide)).1

/-! ## Lemmas about waves and traces -/

theorem chunkList_cons_of_ne (fuel bs : Nat) (l : List Device)
    (hl : l ≠ []) :
    chunkList (fuel + 1) bs l =
      l.take bs :: chunkList fuel bs (l.drop bs) := by
  conv_lhs => unfold chunkList
  rw [if_neg hl]

theorem chunkList_flatten (fuel bs : Nat) (l : List Device)
    (hbs : 1 ≤ bs) (hfuel : l.length ≤ fuel) :
    (chunkList fuel bs l).flatten = l := by
  induction fuel generalizing l with
  | zero =>
    have hl : l = [] := List.length_eq_zero.mp (Nat.le_zero.mp hfuel)
    subst hl
    rfl
  | succ fuel ih =>
    by_cases hl : l = []
    · subst hl
      rfl
    · rw [chunkList_cons_of_ne fuel bs l hl, List.flatten_cons,
        ih (l.drop bs) (by
          rw [List.length_drop]
          have : 1 ≤ l.length := by
            cases l with
            | nil => exact absurd rfl hl
            | cons a as => simp
          omega)]
      exact List.take_append_drop bs l

theorem chunkList_mem_length_le (fuel bs : Nat) (l w : List Device)
    (hw : w ∈ chunkList fuel bs l) : w.length ≤ bs := by
  induction fuel generalizing l with
  | zero => simp [chunkList] at hw
  | succ fuel ih =>
    by_cases hl : l = []
    · subst hl
      simp [chunkList] at hw
    · rw [chunkList_cons_of_ne fuel bs l hl] at hw
      rcases List.mem_cons.mp hw with h | h
      · subst h
        rw [List.length_take]
        exact min_le_left _ _
      · exact ih _ h

theorem progressEvents_append (l1 l2 : List Event) :
    progressEvents (l1 ++ l2) = progressEvents l1 ++ progressEvents l2 := by
  simp [progressEvents, List.filterMap_append]

theorem countSave_append (l1 l2 : List Event) :
    countSave (l1 ++ l2) = countSave l1 + countSave l2 := by
  simp [countSave, List.filter_append]

theorem connect_device_events_fast (e : ConnectEnv) (d : Device) :
    (connect_device e d true).events = [] := by
  unfold connect_device
  by_cases h1 : d.status = "unauthorized"
  · rw [if_pos h1]
  · rw [if_neg h1]
    by_cases h2 : d.status ≠ "device"
    · rw [if_pos h2]
    · rw [if_neg h2, if_pos rfl]

theorem connect_device_events_full (e : ConnectEnv) (d : Device) :
    (connect_device e d false).events =
      if (connect_device e d false).ok then [Event.saveCache] else [] := by
  unfold connect_device
  by_cases h1 : d.status = "unauthorized"
  · rw [if_pos h1]
    rfl
  · rw [if_neg h1]
    by_cases h2 : d.status ≠ "device"
    · rw [if_pos h2]
      rfl
    · rw [if_neg h2, if_neg (by simp)]
      cases e.u2connect with
      | error m => rfl
      | ok h =>
        dsimp only
        cases e.infoProbe with
        | error m => rfl
        | ok ver => rfl

theorem progressEvents_runWave (env : String → ConnectEnv) (fast : Bool)
    (wave : List Device) :
    progressEvents (runWave env fast wave).2 = [] := by
  unfold runWave
  induction wave with
  | nil => rfl
  | cons d rest ih =>
    simp only [List.map_cons, List.flatten_cons, progressEvents_append]
    rw [ih]
    have hd : progressEvents (connect_device (env d.serial) d fast).events
        = [] := by
      cases fast with
      | false =>
        rw [connect_device_events_full]
        by_cases h : (connect_device (env d.serial) d false).ok
        · rw [if_pos h]
          rfl
        · rw [if_neg h]
          rfl
      | true =>
        rw [connect_device_events_fast]
        rfl
    rw [hd]
    rfl

theorem countSave_runWave_full (env : String → ConnectEnv)
    (wave : List Device) :
    countSave (runWave env false wave).2 = (runWave env false wave).1 := by
  unfold runWave
  induction wave with
  | nil => rfl
  | cons d rest ih =>
    simp only [List.map_cons, List.flatten_cons, List.filter_cons,
      countSave_append]
    rw [ih, connect_device_events_full]
    by_cases h : (connect_device (env d.serial) d false).ok
    · rw [if_pos h, if_pos (by simpa using h)]
      simp [countSave]
      omega
    · rw [if_neg h, if_neg (by simpa using h)]
      simp [countSave]

theorem countSave_runWave_fast (env : String → ConnectEnv)
    (wave : List Device) :
    countSave (runWave env true wave).2 = 0 := by
  unfold runWave
  induction wave with
  | nil => rfl
  | cons d rest ih =>
    simp only [List.map_cons, List.flatten_cons, countSave_append]
    rw [ih, connect_device_events_fast]
    rfl

theorem foldl_waveStep_spec (env : String → ConnectEnv) (fast : Bool)
    (n : Nat) (waves : List (List Device)) (a : Nat) (evs : List Event) :
    (waves.foldl (waveStep env fast n) (a, evs)).1 =
      a + (waves.map (countOk env fast)).sum ∧
    progressEvents (waves.foldl (waveStep env fast n) (a, evs)).2 =
      progressEvents evs ++
        cumProgress n a (waves.map (countOk env fast)) ∧
    countSave (waves.foldl (waveStep env fast n) (a, evs)).2 =
      countSave evs +
        (waves.map (fun w => countSave (runWave env fast w).2)).sum := by
  induction waves generalizing a evs with
  | nil => simp [cumProgress]
  | cons w rest ih =>
    simp only [List.foldl_cons, waveStep, List.map_cons, List.sum_cons]
    obtain ⟨ih1, ih2, ih3⟩ := ih (a + (runWave env fast w).1)
      (evs ++ (runWave env fast w).2 ++
        [Event.progress (a + (runWave env fast w).1) n])
    refine ⟨?_, ?_, ?_⟩
    · rw [ih1]
      unfold countOk
      omega
    · rw [ih2, progressEvents_append, progressEvents_append,
        progressEvents_runWave]
      have hp : progressEvents
          [Event.progress (a + (runWave env fast w).1) n] =
            [(a + (runWave env fast w).1, n)] := rfl
      rw [hp]
      unfold countOk
      rw [cumProgress]
      simp
    · rw [ih3, countSave_append, countSave_append]
      have hs : countSave
          [Event.progress (a + (runWave env fast w).1) n] = 0 := rfl
      rw [hs]
      omega

/-- Claim C3: batch-size table and wave partition of
`connect_all_devices` — the no-override batch size is 10 for at most 10
authorized devices, 25 up to 50, 50 up to 100, 75 beyond, with fast
mode doubling the table value capped at 50; a batch size at least the
device count gives a single wave, otherwise the devices are partitioned
into sequential slices of the batch size (8 devices give one wave, 40
devices with batch 25 give waves of 25 and 15); and the trace of
`connect_all` contains one progress invocation per wave carrying the
cumulative connected count and the fixed total. -/
theorem connect_all_batch_table_and_waves :
    (∀ n : Nat,
      (n ≤ 10 → computeBatchSize n false = 10) ∧
      (10 < n → n ≤ 50 → computeBatchSize n false = 25) ∧
      (50 < n → n ≤ 100 → computeBatchSize n false = 50) ∧
      (100 < n → computeBatchSize n false = 75) ∧
      computeBatchSize n true = min (computeBatchSize n false * 2) 50) ∧
    (∀ (auth : List Device) (bs : Nat), auth.length ≤ bs →
      waveListOf auth bs = [auth]) ∧
    (∀ (auth : List Device) (bs : Nat), 1 ≤ bs →
      (waveListOf auth bs).flatten = auth ∧
      ∀ w ∈ waveListOf auth bs, w.length ≤ bs) ∧
    (∀ auth : List Device, auth.length = 8 →
      waveListOf auth (computeBatchSize 8 false) = [auth]) ∧
    (∀ auth : List Device, auth.length = 40 →
      (waveListOf auth (computeBatchSize 40 false)).map List.length =
        [25, 15]) ∧
    (∀ (env : String → ConnectEnv) (devs0 : List Device) (fast : Bool),
      authorizedOf devs0 ≠ [] →
      progressEvents (connect_all env devs0 none fast).2 =
        cumProgress (authorizedOf devs0).length 0
          ((waveListOf (authorizedOf devs0)
              (computeBatchSize (authorizedOf devs0).length fast)).map
            (countOk env fast))) := by
  refine ⟨?_, ?_, ?_, ?_, ?_, ?_⟩
  · intro n
    refine ⟨?_, ?_, ?_, ?_, rfl⟩
    · intro h
      show baseBatchSize n = 10
      unfold baseBatchSize
      rw [if_pos h]
    · intro h1 h2
      show baseBatchSize n = 25
      unfold baseBatchSize
      rw [if_neg (by omega), if_pos h2]
    · intro h1 h2
      show baseBatchSize n = 50
      unfold baseBatchSize
      rw [if_neg (by omega), if_neg (by omega), if_pos h2]
    · intro h1
      show baseBatchSize n = 75
      unfold baseBatchSize
      rw [if_neg (by omega), if_neg (by omega), if_neg (by omega)]
  · intro auth bs h
    unfold waveListOf
    rw [if_pos h]
  · intro auth bs hbs
    constructor
    · unfold waveListOf
      by_cases hle : auth.length ≤ bs
      · rw [if_pos hle]
        simp
      · rw [if_neg hle]
        exact chunkList_flatten auth.length bs auth hbs le_rfl
    · intro w hw
      unfold waveListOf at hw
      by_cases hle : auth.length ≤ bs
      · rw [if_pos hle] at hw
        rcases List.mem_singleton.mp hw with rfl
        exact hle
      · rw [if_neg hle] at hw
        exact chunkList_mem_length_le auth.length bs auth w hw
  · intro auth h8
    unfold waveListOf
    rw [if_pos (by rw [h8]; decide)]
  · intro auth h40
    have hbs : computeBatchSize 40 false = 25 := by decide
    rw [hbs]
    unfold waveListOf
    rw [if_neg (by rw [h40]; decide), h40]
    have h1 : auth ≠ [] := by
      intro hc
      rw [hc] at h40
      simp at h40
    have h2 : auth.drop 25 ≠ [] := by
      intro hc
      have hlen := congrArg List.length hc
      rw [List.length_drop, h40] at hlen
      simp at hlen
    have h3 : (auth.drop 25).drop 25 = [] := by
      rw [List.drop_drop]
      apply List.drop_eq_nil_of_le
      rw [h40]
      decide
    rw [show (40 : Nat) = 39 + 1 from rfl, chunkList_cons_of_ne 39 25 auth h1,
      show (39 : Nat) = 38 + 1 from rfl,
      chunkList_cons_of_ne 38 25 (auth.drop 25) h2]
    have h4 : chunkList 38 25 ((auth.drop 25).drop 25) = [] := by
      rw [h3]
      rfl
    rw [h4]
    simp [List.length_take, List.length_drop, h40]
  · intro env devs0 fast hne
    simp only [connect_all]
    rw [if_neg hne]
    cases fast with
    | false =>
      exact (foldl_waveStep_spec env false (authorizedOf devs0).length
        (waveListOf (authorizedOf devs0)
          (computeBatchSize (authorizedOf devs0).length false)) 0 []).2.1
    | true =>
      rw [if_pos (by trivial)]
      rw [progressEvents_append]
      have hlast : progressEvents [Event.saveCache] = [] := rfl
      rw [hlast, List.append_nil]
      exact (foldl_waveStep_spec env true (authorizedOf devs0).length
        (waveListOf (authorizedOf devs0)
          (computeBatchSize (authorizedOf devs0).length true)) 0 []).2.1

theorem connect_all_batch_table_and_waves_witness :
    computeBatchSize 8 false = 10 ∧
    computeBatchSize 40 false = 25 ∧
    waveListOf [authA] (computeBatchSize 8 false) = [[authA]] ∧
    progressEvents (connect_all envOkAll [authA, authB] none false).2 =
      cumProgress (authorizedOf [authA, authB]).length 0
        ((waveListOf (authorizedOf [authA, authB])
            (computeBatchSize (authorizedOf [authA, authB]).length false)).map
          (countOk envOkAll false)) :=
  ⟨(connect_all_batch_table_and_waves.1 8).1 (by decide),
   (connect_all_batch_table_and_waves.1 40).2.1 (by decide) (by decide),
   connect_all_batch_table_and_waves.2.1 [authA] (computeBatchSize 8 false)
     (by decide),
   connect_all_batch_table_and_waves.2.2.2.2.2 envOkAll [authA, authB]
     false (by decide)⟩

/-- Claim C8 counterexample: a full-mode `connect_all` over two
authorized devices whose connections succeed saves the device cache
twice — once per device inside the single wave, before the progress
callback — and never at the end of the call, so the cache is not
persisted exactly once after all waves. -/
theorem cache_persist_counterexample :
    (connect_all envOkAll [authA, authB] none false).2 =
      [Event.saveCache, Event.saveCache, Event.progress 2 2] ∧
    ¬ countSave (connect_all envOkAll [authA, authB] none false).2 = 1 := by
  constructor
  · decide
  · decide

/-- Claim C8 amended: in fast mode the cache is persisted exactly once
per `connect_all` pass over a nonempty authorized set, as the final
event after all waves; in full mode it is instead persisted inside
`connect_device` once per successful attempt — the number of saves
equals the connected count and nothing is saved at end of call. -/
theorem cache_persist_amended (env : String → ConnectEnv)
    (devs0 : List Device) (override : Option Nat) :
    (authorizedOf devs0 ≠ [] →
      countSave (connect_all env devs0 override true).2 = 1 ∧
      (connect_all env devs0 override true).2.getLast? =
        some Event.saveCache) ∧
    countSave (connect_all env devs0 override false).2 =
      (connect_all env devs0 override false).1 := by
  constructor
  · intro hne
    simp only [connect_all]
    rw [if_neg hne]
    rw [if_pos (by trivial)]
    constructor
    · rw [countSave_append]
      have hsp := (foldl_waveStep_spec env true (authorizedOf devs0).length
        (waveListOf (authorizedOf devs0)
          (match override with
           | some b => b
           | none => computeBatchSize (authorizedOf devs0).length true))
        0 []).2.2
      rw [hsp]
      have hz : ∀ waves : List (List Device),
          (waves.map (fun w => countSave (runWave env true w).2)).sum = 0 := by
        intro waves
        apply List.sum_eq_zero
        intro x hx
        rcases List.mem_map.mp hx with ⟨w, _, rfl⟩
        exact countSave_runWave_fast env w
      rw [hz]
      rfl
    · exact List.getLast?_concat _
  · by_cases hne : authorizedOf devs0 = []
    · simp only [connect_all]
      rw [if_pos hne]
      rfl
    · simp only [connect_all]
      rw [if_neg hne, if_neg (by decide)]
      have hsp := foldl_waveStep_spec env false (authorizedOf devs0).length
        (waveListOf (authorizedOf devs0)
          (match override with
           | some b => b
           | none => computeBatchSize (authorizedOf devs0).length false))
        0 []
      rw [hsp.2.2, hsp.1]
      have hmap : ∀ bs : Nat,
          ((waveListOf (authorizedOf devs0) bs).map
            (fun w => countSave (runWave env false w).2)) =
          ((waveListOf (authorizedOf devs0) bs).map (countOk env false)) := by
        intro bs
        apply List.map_congr_left
        intro w _
        rw [countSave_runWave_full]
        rfl
      rw [hmap]
      rfl

theorem cache_persist_amended_witness :
    countSave (connect_all envOkAll [authA] none true).2 = 1 ∧
    (connect_all envOkAll [authA] none true).2.getLast? =
      some Event.saveCache :=
  (cache_persist_amended envOkAll [authA] none).1 (by decide)

/-- Claim C9: bounded concurrency — starting from the state where
`asyncio.gather` has submitted one task per serial to the
`ThreadPoolExecutor`, every state reachable under the pool semantics
(`start` admits a task only while fewer than `limit` run) has at most
`limit` tasks in flight, so the observed peak concurrency never exceeds
the worker bound. -/
theorem bounded_concurrency (limit : Nat) (devices : List String)
    (s : PoolState)
    (h : Relation.ReflTransGen (PoolStep limit) (initPool devices) s) :
    s.running.length ≤ limit := by
  induction h with
  | refl => simp [initPool]
  | tail hab hbc ih
  => ?_
  cases hbc with
  | start t s hmem hcap =>
    simp only [List.length_cons]
    exact hcap
  | finish t s hmem =>
    have he := List.length_erase_of_mem hmem
    simp only [he]
    omega

theorem bounded_concurrency_witness :
    (PoolState.mk (["a", "b"].erase "a") ["a"] []).running.length ≤
      BatchADB_max_workers :=
  bounded_concurrency BatchADB_max_workers ["a", "b"] _
    (Relation.ReflTransGen.single
      (PoolStep.start "a" (initPool ["a", "b"]) (by decide) (by decide)))

end PhoneFarm
